import Mathlib

set_option maxRecDepth 100000

/-!
# Verification of the stewrd-python SDK core

Shallow embedding of the stewrd SDK (files `stewrd/streaming.py`,
`stewrd/types.py`, `stewrd/client.py`, `stewrd/errors.py`) and proofs about
its SSE stream decoder, block parser, response decoding and error mapping.

Strings from the wire are modelled as `List Char` (Python `str` values).
JSON values are modelled by the inductive `Json` below; JSON numbers with a
fraction or exponent are modelled as decimal pairs (mantissa, power of ten)
rather than IEEE floats, which is faithful for everything the claims touch
(the protocol's numeric fields are integers).  Python dynamic attribute
errors (e.g. calling `.get` on a non-dict) are modelled by `Except Unit`,
where `Except.error ()` means "an exception propagates".
-/

/-- JSON values, as produced by Python's `json.loads`.  `fnum m e` models a
float literal with value `m * 10^e`; `nan`/`inf` model Python's non-standard
`NaN`/`Infinity` literals.  Objects keep Python dict semantics: insertion
order with later duplicate keys replacing earlier values in place. -/
inductive Json where
  | null
  | bool (b : Bool)
  | num (n : Int)
  | fnum (mantissa : Int) (exp10 : Int)
  | nan
  | inf (neg : Bool)
  | str (s : String)
  | arr (elems : List Json)
  | obj (members : List (String × Json))
deriving Repr

/-- `str2l s` is the character list of a string literal. -/
def str2l (s : String) : List Char := s.data

/-- Python truthiness (`bool(x)`) of a JSON value: `None`, `False`, zero,
empty string, empty list and empty dict are falsy. -/
def truthy : Json → Bool
  | .null => false
  | .bool b => b
  | .num n => n != 0
  | .fnum m _ => m != 0
  | .nan => true
  | .inf _ => true
  | .str s => !s.isEmpty
  | .arr l => !l.isEmpty
  | .obj l => !l.isEmpty

/-- Association-list lookup, first match (Python dicts have unique keys). -/
def lookupKey : List (String × Json) → String → Option Json
  | [], _ => none
  | (k, v) :: rest, key => if k = key then some v else lookupKey rest key

/-- Python `d.get(k)`: the value, or `None` when the key is absent. -/
def getJ (m : List (String × Json)) (k : String) : Json :=
  (lookupKey m k).getD .null

/-- Python `d.get(k, default)`. -/
def getD (m : List (String × Json)) (k : String) (d : Json) : Json :=
  (lookupKey m k).getD d

/-- Python `a or b`: `a` when truthy, else `b`. -/
def pyOr (a b : Json) : Json := if truthy a then a else b

/-- Insert into a Python dict under construction: a duplicate key replaces
the value in place, otherwise the pair is appended. -/
def insertKey : List (String × Json) → String → Json → List (String × Json)
  | [], k, v => [(k, v)]
  | (k', v') :: rest, k, v =>
    if k' = k then (k', v) :: rest else (k', v') :: insertKey rest k v

/-! ## A model of Python `json.loads` -/

/-- JSON whitespace characters. -/
def jsonWs (c : Char) : Bool := c = ' ' || c = '\t' || c = '\n' || c = '\r'

/-- Skip JSON whitespace. -/
def skipWs : List Char → List Char
  | [] => []
  | c :: rest => if jsonWs c then skipWs rest else c :: rest

/-- Hex digit value. -/
def hexVal (c : Char) : Option Nat :=
  if '0' ≤ c ∧ c ≤ '9' then some (c.toNat - 48)
  else if 'a' ≤ c ∧ c ≤ 'f' then some (c.toNat - 87)
  else if 'A' ≤ c ∧ c ≤ 'F' then some (c.toNat - 55)
  else none

/-- Body of a JSON string literal (after the opening quote): returns the
decoded characters and the input after the closing quote.  Raw control
characters are rejected, as in Python's strict mode. -/
def parseStrF : Nat → List Char → Option (List Char × List Char)
  | 0, _ => none
  | _ + 1, [] => none
  | n + 1, c :: rest =>
    if c = '"' then some ([], rest)
    else if c = '\\' then
      match rest with
      | [] => none
      | e :: rest2 =>
        let cont := fun (ch : Char) (r : List Char) =>
          match parseStrF n r with
          | some (cs, r2) => some (ch :: cs, r2)
          | none => none
        if e = '"' then cont '"' rest2
        else if e = '\\' then cont '\\' rest2
        else if e = '/' then cont '/' rest2
        else if e = 'b' then cont '\x08' rest2
        else if e = 'f' then cont '\x0c' rest2
        else if e = 'n' then cont '\n' rest2
        else if e = 'r' then cont '\r' rest2
        else if e = 't' then cont '\t' rest2
        else if e = 'u' then
          match rest2 with
          | h1 :: h2 :: h3 :: h4 :: rest3 =>
            match hexVal h1, hexVal h2, hexVal h3, hexVal h4 with
            | some a, some b, some c3, some d =>
              cont (Char.ofNat (((a * 16 + b) * 16 + c3) * 16 + d)) rest3
            | _, _, _, _ => none
          | _ => none
        else none
    else if c.toNat < 32 then none
    else
      match parseStrF n rest with
      | some (cs, r2) => some (c :: cs, r2)
      | none => none

/-- Leading decimal digits of the input, and the rest. -/
def takeDigits (s : List Char) : List Char × List Char :=
  (s.takeWhile Char.isDigit, s.dropWhile Char.isDigit)

/-- Numeric value of a digit string. -/
def digitsVal (ds : List Char) : Nat :=
  ds.foldl (fun a c => a * 10 + (c.toNat - 48)) 0

/-- Exponent digits of a JSON number (after `e`/`E`). -/
def parseExpDigits (neg : Bool) (ds fds : List Char) (s : List Char) :
    Option (Json × List Char) :=
  let (esign, s1) : Int × List Char :=
    match s with
    | '+' :: r => (1, r)
    | '-' :: r => (-1, r)
    | _ => (1, s)
  let (eds, s2) := takeDigits s1
  if eds.isEmpty then none
  else
    let sign : Int := if neg then -1 else 1
    some (.fnum (sign * (digitsVal (ds ++ fds) : Int))
            (esign * (digitsVal eds : Int) - (fds.length : Int)), s2)

/-- Optional exponent part of a JSON number.  A number with neither fraction
nor exponent is an `Int` in Python, otherwise a float. -/
def parseExpPart (neg : Bool) (ds fds : List Char) (s : List Char) :
    Option (Json × List Char) :=
  match s with
  | 'e' :: r => parseExpDigits neg ds fds r
  | 'E' :: r => parseExpDigits neg ds fds r
  | _ =>
    let sign : Int := if neg then -1 else 1
    if fds.isEmpty then some (.num (sign * (digitsVal ds : Int)), s)
    else some (.fnum (sign * (digitsVal (ds ++ fds) : Int))
                 (-(fds.length : Int)), s)

/-- A JSON number literal: optional minus, integer digits with no leading
zero, optional fraction, optional exponent. -/
def parseNumber (s : List Char) : Option (Json × List Char) :=
  let (neg, s1) : Bool × List Char :=
    match s with
    | '-' :: r => (true, r)
    | _ => (false, s)
  let (ds, s2) := takeDigits s1
  if ds.isEmpty then none
  else if ds.length > 1 && ds.head? = some '0' then none
  else
    match s2 with
    | '.' :: r =>
      let (fds, s3) := takeDigits r
      if fds.isEmpty then none else parseExpPart neg ds fds s3
    | _ => parseExpPart neg ds [] s2

mutual

/-- A JSON value (fuel-indexed recursive-descent parser). -/
def parseVal : Nat → List Char → Option (Json × List Char)
  | 0, _ => none
  | Nat.succ fuel, s =>
    match skipWs s with
    | '{' :: rest =>
      (match skipWs rest with
       | '}' :: rest2 => some (.obj [], rest2)
       | rest2 => parseMembers fuel rest2 [])
    | '[' :: rest =>
      (match skipWs rest with
       | ']' :: rest2 => some (.arr [], rest2)
       | rest2 => parseElems fuel rest2 [])
    | '"' :: rest =>
      (match parseStrF (rest.length + 1) rest with
       | some (cs, r) => some (.str (String.mk cs), r)
       | none => none)
    | 't' :: 'r' :: 'u' :: 'e' :: rest => some (.bool true, rest)
    | 'f' :: 'a' :: 'l' :: 's' :: 'e' :: rest => some (.bool false, rest)
    | 'n' :: 'u' :: 'l' :: 'l' :: rest => some (.null, rest)
    | 'N' :: 'a' :: 'N' :: rest => some (.nan, rest)
    | 'I' :: 'n' :: 'f' :: 'i' :: 'n' :: 'i' :: 't' :: 'y' :: rest =>
      some (.inf false, rest)
    | '-' :: 'I' :: 'n' :: 'f' :: 'i' :: 'n' :: 'i' :: 't' :: 'y' :: rest =>
      some (.inf true, rest)
    | other => parseNumber other

/-- Members of a JSON object after the opening brace (nonempty case). -/
def parseMembers : Nat → List Char → List (String × Json) →
    Option (Json × List Char)
  | 0, _, _ => none
  | Nat.succ fuel, s, acc =>
    match skipWs s with
    | '"' :: rest =>
      (match parseStrF (rest.length + 1) rest with
       | some (key, r1) =>
         (match skipWs r1 with
          | ':' :: r2 =>
            (match parseVal fuel r2 with
             | some (v, r3) =>
               let acc2 := insertKey acc (String.mk key) v
               (match skipWs r3 with
                | ',' :: r4 => parseMembers fuel r4 acc2
                | '}' :: r4 => some (.obj acc2, r4)
                | _ => none)
             | none => none)
          | _ => none)
       | none => none)
    | _ => none

/-- Elements of a JSON array after the opening bracket (nonempty case). -/
def parseElems : Nat → List Char → List Json → Option (Json × List Char)
  | 0, _, _ => none
  | Nat.succ fuel, s, acc =>
    match parseVal fuel s with
    | some (v, r1) =>
      (match skipWs r1 with
       | ',' :: r2 => parseElems fuel r2 (acc ++ [v])
       | ']' :: r2 => some (.arr (acc ++ [v]), r2)
       | _ => none)
    | none => none

end

/-- Model of Python `json.loads`: parse one JSON document, allowing
surrounding whitespace, requiring the whole input to be consumed.
`none` models a raised `json.JSONDecodeError`. -/
def json_loads (s : List Char) : Option Json :=
  match parseVal (2 * s.length + 2) s with
  | some (v, rest) => if (skipWs rest).isEmpty then some v else none
  | none => none

/-! ## Domain types (`stewrd/types.py`)

Python dataclass fields are dynamically typed: `from_dict` stores whatever
JSON value the input carries, so the model keeps fields as `Json`.
`Except.error ()` models an uncaught Python exception (e.g. `.get` called on
a non-dict). -/

/-- `InputFile` — a file attached to the agent request (caller-typed). -/
structure InputFile where
  name : String
  content : String
deriving Repr

/-- `ResponseFile` — a file returned in the agent response. -/
structure ResponseFile where
  name : Json := .str ""
  content : Json := .null
  url : Json := .null
deriving Repr

/-- `Usage` — token / request usage for a run. -/
structure Usage where
  requests_used : Json := .num 0
  requests_limit : Json := .num 0
  tokens_used : Json := .num 0
deriving Repr

/-- `Meta` — response metadata. -/
structure Meta where
  duration_ms : Json := .num 0
  project_id : Json := .str ""
  plan : Json := .str ""
deriving Repr

/-- `AgentResponse` — synchronous response from `stewrd.agent.run()`. -/
structure AgentResponse where
  id : Json := .str ""
  object : Json := .str "agent.response"
  message : Json := .str ""
  capabilities_used : Json := .arr []
  files : List ResponseFile := []
  usage : Usage := {}
  meta : Meta := {}
deriving Repr

/-- `ResponseFile.from_dict`: `data.get` raises unless `data` is a dict. -/
def ResponseFile.from_dict (data : Json) : Except Unit ResponseFile :=
  match data with
  | .obj m =>
    .ok { name := getD m "name" (.str ""),
          content := getJ m "content",
          url := getJ m "url" }
  | _ => .error ()

/-- `Usage.from_dict`. -/
def Usage.from_dict (data : Json) : Except Unit Usage :=
  match data with
  | .obj m =>
    .ok { requests_used := getD m "requests_used" (.num 0),
          requests_limit := getD m "requests_limit" (.num 0),
          tokens_used := getD m "tokens_used" (.num 0) }
  | _ => .error ()

/-- `Meta.from_dict`. -/
def Meta.from_dict (data : Json) : Except Unit Meta :=
  match data with
  | .obj m =>
    .ok { duration_ms := getD m "duration_ms" (.num 0),
          project_id := getD m "project_id" (.str ""),
          plan := getD m "plan" (.str "") }
  | _ => .error ()

/-- Python `for x in v`: lists iterate their elements, dicts their keys,
strings their characters; other values raise `TypeError`. -/
def pyIter : Json → Option (List Json)
  | .arr xs => some xs
  | .obj ms => some (ms.map fun p => .str p.1)
  | .str s => some (s.data.map fun c => .str (String.mk [c]))
  | _ => none

/-- `AgentResponse.from_dict` (types.py lines 90-100).  Note the `id` field:
`data.get("id") or data.get("request_id", "")` — Python `or` falls back
whenever `data.get("id")` is falsy, not only when the key is absent. -/
def AgentResponse.from_dict (data : Json) : Except Unit AgentResponse :=
  match data with
  | .obj m =>
    match pyIter (getD m "files" (.arr [])) with
    | none => .error ()
    | some elems =>
      match elems.mapM ResponseFile.from_dict with
      | .error e => .error e
      | .ok files =>
        match Usage.from_dict (getD m "usage" (.obj [])) with
        | .error e => .error e
        | .ok usage =>
          match Meta.from_dict (getD m "meta" (.obj [])) with
          | .error e => .error e
          | .ok meta =>
            .ok { id := pyOr (getJ m "id") (getD m "request_id" (.str "")),
                  object := getD m "object" (.str "agent.response"),
                  message := getD m "message" (.str ""),
                  capabilities_used := getD m "capabilities_used" (.arr []),
                  files := files, usage := usage, meta := meta }
  | _ => .error ()

/-- `StreamEvent` — the five stream event dataclasses; the Python `type`
string discriminator is the constructor. -/
inductive StreamEvent where
  | token (content : Json)
  | tool_start (tool : Json)
  | tool_end (tool : Json)
  | done (response : AgentResponse) (usage : Usage)
  | error (code : Json) (message : Json)
deriving Repr

/-! ## The SSE block parser (`AgentStream._parse_sse_block`) -/

/-- Python `str.strip()` whitespace (ASCII fragment). -/
def isPySpace (c : Char) : Bool :=
  c = ' ' || c = '\t' || c = '\n' || c = '\r' || c = '\x0b' || c = '\x0c'

/-- Python `s.strip()`. -/
def pyStrip (l : List Char) : List Char :=
  ((l.dropWhile isPySpace).reverse.dropWhile isPySpace).reverse

/-- Python `s.split("\n")`: always at least one part. -/
def splitOnNl : List Char → List (List Char)
  | [] => [[]]
  | c :: rest =>
    if c = '\n' then [] :: splitOnNl rest
    else
      match splitOnNl rest with
      | l :: ls => (c :: l) :: ls
      | [] => [[c]]

/-- Python `s.startswith(p)` on character lists. -/
def startsL : List Char → List Char → Bool
  | [], _ => true
  | _ :: _, [] => false
  | p :: ps, c :: cs => p = c && startsL ps cs

/-- The line scan of `_parse_sse_block` (streaming.py lines 79-86): the last
`event:` line wins; stripped `data:` remainders are concatenated. -/
def scanBlock (block : List Char) : List Char × List Char :=
  (splitOnNl block).foldl
    (fun acc line =>
      if startsL (str2l "event:") line then (pyStrip (line.drop 6), acc.2)
      else if startsL (str2l "data:") line then
        (acc.1, acc.2 ++ pyStrip (line.drop 5))
      else acc)
    ([], [])

/-- The `done` dispatch (streaming.py lines 102-105), for a dict `parsed`:
`usage_data = parsed.get("usage") or (parsed.get("response") or {}).get("usage", {})`
with Python `or` short-circuiting on truthiness. -/
def doneOfObj (m : List (String × Json)) : Except Unit StreamEvent :=
  match AgentResponse.from_dict (getD m "response" (Json.obj [])) with
  | .error e => .error e
  | .ok resp =>
    match (if truthy (getJ m "usage") then Except.ok (getJ m "usage")
           else
             match pyOr (getJ m "response") (Json.obj []) with
             | .obj rm => Except.ok (getD rm "usage" (Json.obj []))
             | _ => Except.error ()) with
    | .error e => .error e
    | .ok ud =>
      match Usage.from_dict ud with
      | .error e => .error e
      | .ok u => .ok (.done resp u)

/-- `AgentStream._parse_sse_block` (streaming.py lines 77-109).
`Except.ok none` = no event; `Except.ok (some e)` = one event;
`Except.error ()` = an exception propagates (only `json.JSONDecodeError`
is caught by the source, so `.get` on a non-dict parse escapes). -/
def parse_sse_block (block : List Char) : Except Unit (Option StreamEvent) :=
  let p := scanBlock block
  let et := p.1
  let data := p.2
  if et.isEmpty || data.isEmpty then .ok none
  else
    match json_loads data with
    | none => .ok none
    | some parsed =>
      if et = str2l "token" then
        match parsed with
        | .obj m => .ok (some (.token (getD m "content" (.str ""))))
        | _ => .error ()
      else if et = str2l "tool_start" then
        match parsed with
        | .obj m => .ok (some (.tool_start (getD m "tool" (.str ""))))
        | _ => .error ()
      else if et = str2l "tool_end" then
        match parsed with
        | .obj m => .ok (some (.tool_end (getD m "tool" (.str ""))))
        | _ => .error ()
      else if et = str2l "done" then
        match parsed with
        | .obj m =>
          (match doneOfObj m with
           | .error e => .error e
           | .ok ev => .ok (some ev))
        | _ => .error ()
      else if et = str2l "error" then
        match parsed with
        | .obj m =>
          .ok (some (StreamEvent.error (getD m "code" (.str ""))
                       (getD m "message" (.str ""))))
        | _ => .error ()
      else .ok none

/-! ## The stream decoder (`AgentStream.__iter__`, streaming.py lines 38-56) -/

/-- Python `buffer.split("\n\n", 1)` (and `"\n\n" in buffer`): split at the
leftmost occurrence of two consecutive newlines; `none` when there is none. -/
def splitTwoNl : List Char → Option (List Char × List Char)
  | [] => none
  | [_] => none
  | c :: d :: rest =>
    if c = '\n' && d = '\n' then some ([], rest)
    else
      match splitTwoNl (d :: rest) with
      | some (a, b) => some (c :: a, b)
      | none => none

/-- The outcome of one full iteration of `AgentStream.__iter__`: the events
yielded, in order, and whether an uncaught exception ended the iteration. -/
structure IterOutcome where
  events : List StreamEvent
  raised : Bool
deriving Repr

/-- The inner `while "\n\n" in buffer` loop of `__iter__`, fuel-indexed:
returns (events yielded, remaining buffer, raised?).  After an uncaught
exception the buffer is dead, so it is returned empty. -/
def drainF : Nat → List Char → List StreamEvent × List Char × Bool
  | 0, s => ([], s, false)
  | Nat.succ fuel, s =>
    match splitTwoNl s with
    | none => ([], s, false)
    | some (block, rest) =>
      match parse_sse_block block with
      | .error _ => ([], [], true)
      | .ok none => drainF fuel rest
      | .ok (some e) =>
        let p := drainF fuel rest
        (e :: p.1, p.2.1, p.2.2)

/-- The inner while loop of `__iter__`: each pass removes at least two
characters, so `s.length` fuel always suffices (proved below). -/
def drain (s : List Char) : List StreamEvent × List Char × Bool :=
  drainF s.length s

/-- The flush after the chunk loop (streaming.py lines 50-56): a remaining
buffer with non-whitespace content is parsed as one final block. -/
def flushBuf (buffer : List Char) : IterOutcome :=
  if pyStrip buffer = [] then ⟨[], false⟩
  else
    match parse_sse_block buffer with
    | .error _ => ⟨[], true⟩
    | .ok none => ⟨[], false⟩
    | .ok (some e) => ⟨[e], false⟩

/-- `AgentStream.__iter__` over a chunk sequence, starting from a given
buffer: append each chunk, drain complete blocks, and flush at the end.
An uncaught exception stops the iteration (no flush). -/
def iterEventsAux : List (List Char) → List Char → IterOutcome
  | [], buffer => flushBuf buffer
  | c :: cs, buffer =>
    let t := drain (buffer ++ c)
    if t.2.2 then ⟨t.1, true⟩
    else
      let o := iterEventsAux cs t.2.1
      ⟨t.1 ++ o.events, o.raised⟩

/-- `AgentStream.__iter__`: iterate the decoder over the transport's chunks
(initial buffer empty). -/
def iterEvents (chunks : List (List Char)) : IterOutcome :=
  iterEventsAux chunks []

/-- First `DoneEvent`'s response in a list of events, if any. -/
def firstDone : List StreamEvent → Option AgentResponse
  | [] => none
  | StreamEvent.done r _ :: _ => some r
  | _ :: rest => firstDone rest

/-- The update `self._final_response = event.response` performed at each
yield of a `DoneEvent` (streaming.py lines 46-47 and 54-55). -/
def updateRec (cur : Option AgentResponse) : StreamEvent → Option AgentResponse
  | .done r _ => some r
  | _ => cur

/-- The stream's `_final_response` attribute after a full iteration, given
its initial value: folded over the yielded events. -/
def recordedAfter (chunks : List (List Char)) (init : Option AgentResponse) :
    Option AgentResponse :=
  (iterEvents chunks).events.foldl updateRec init

/-- The possible outcomes of `AgentStream.final_response()`. -/
inductive FinalResult where
  | ok (r : AgentResponse)
  | protocolError
  | raised
deriving Repr

/-- `AgentStream.final_response()` (streaming.py lines 60-73): iterate,
return the first `DoneEvent`'s response; an exception from the iteration
propagates; otherwise fall back to the recorded `_final_response` (its value
before this call, since no `DoneEvent` was yielded), else raise
`RuntimeError("Stream ended without a done event")`. -/
def final_response (chunks : List (List Char)) (init : Option AgentResponse) :
    FinalResult :=
  let o := iterEvents chunks
  match firstDone o.events with
  | some r => FinalResult.ok r
  | none =>
    if o.raised then FinalResult.raised
    else
      match init with
      | some r => FinalResult.ok r
      | none => FinalResult.protocolError

/-! ## Spec-side block decomposition (§4.3 of the spec) -/

/-- Fuel-indexed block splitter: repeatedly split off the text before the
first occurrence of two consecutive newlines; a final remainder is one last
block unless it is whitespace-only. -/
def blocksOfF : Nat → List Char → List (List Char)
  | 0, s => if pyStrip s = [] then [] else [s]
  | Nat.succ fuel, s =>
    match splitTwoNl s with
    | none => if pyStrip s = [] then [] else [s]
    | some (block, rest) => block :: blocksOfF fuel rest

/-- The SSE blocks of a full text, per the spec's words: completed blocks
split in order at each first occurrence of a blank line, plus the trailing
non-whitespace remainder as one final block. -/
def blocksOf (s : List Char) : List (List Char) := blocksOfF s.length s

/-- Feed a list of blocks to the block parser in order, collecting the
events; an exception stops the processing. -/
def outcomeOfBlocks : List (List Char) → IterOutcome
  | [] => ⟨[], false⟩
  | b :: bs =>
    match parse_sse_block b with
    | .error _ => ⟨[], true⟩
    | .ok none => outcomeOfBlocks bs
    | .ok (some e) =>
      let o := outcomeOfBlocks bs
      ⟨e :: o.events, o.raised⟩

/-- Sequential composition of two iteration outcomes: after an exception
nothing further runs, otherwise the event lists concatenate. -/
def combineOutcome (o1 o2 : IterOutcome) : IterOutcome :=
  if o1.raised then o1 else ⟨o1.events ++ o2.events, o2.raised⟩

/-- Last `DoneEvent`'s response in a list of events, if any. -/
def lastDone : List StreamEvent → Option AgentResponse
  | [] => none
  | e :: rest =>
    match lastDone rest with
    | some r => some r
    | none =>
      match e with
      | .done r _ => some r
      | _ => none

/-- One-shot decoding of a full text: drain all complete blocks, then flush
the remainder (used to relate chunked and unchunked decoding). -/
def decodeFull (s : List Char) : IterOutcome :=
  let t := drain s
  if t.2.2 then ⟨t.1, true⟩
  else
    let o := flushBuf t.2.1
    ⟨t.1 ++ o.events, o.raised⟩

/-- The event-type tags the block parser knows. -/
def knownTags : List (List Char) :=
  [str2l "token", str2l "tool_start", str2l "tool_end", str2l "done",
   str2l "error"]

/-! ## Client facade (`stewrd/client.py`, `stewrd/errors.py`) -/

/-- `StewrdError` — raised on a non-2xx response.  `docs` is `Json.null`
when absent (Python `None`). -/
structure StewrdError where
  status : Nat
  code : Json
  message : Json
  docs : Json
deriving Repr

/-- The all-defaults `StewrdError` for a given status and HTTP reason
phrase: `code="unknown_error"`, `message=reason_phrase or "Unknown error"`,
no docs link. -/
def dfltErr (status : Nat) (reason : String) : StewrdError :=
  ⟨status, .str "unknown_error",
   .str (if reason = "" then "Unknown error" else reason), .null⟩

/-- Is a JSON value an object (a Python dict)? -/
def Json.isObj : Json → Bool
  | .obj _ => true
  | _ => false

/-- `Stewrd._handle_error` (client.py lines 155-174): best-effort parse of
the error body; `data.get("error", data)` accepts the error object top-level
or nested; any exception inside the `try` (invalid JSON, `.get` on a
non-dict) falls back to all defaults.  Returns the `StewrdError` raised. -/
def handle_error (status : Nat) (reason : String) (body : List Char) :
    StewrdError :=
  match json_loads body with
  | none => dfltErr status reason
  | some data =>
    match data with
    | .obj m =>
      (match getD m "error" data with
       | .obj em =>
         ⟨status, getD em "code" (.str "unknown_error"),
          getD em "message"
            (.str (if reason = "" then "Unknown error" else reason)),
          getJ em "docs"⟩
       | _ => dfltErr status reason)
    | _ => dfltErr status reason

/-- `dataclasses.asdict` on an `InputFile`: field-by-field serialization. -/
def asdictFile (f : InputFile) : Json :=
  .obj [("name", .str f.name), ("content", .str f.content)]

/-- `_AgentNamespace._build_body` (client.py lines 63-76): `message` and
`stream` always; `capabilities` / `files` only when the caller passed them
(`None` means omit the key entirely). -/
def build_body (message : String) (capabilities : Option (List String))
    (files : Option (List InputFile)) (streamFlag : Bool) :
    List (String × Json) :=
  let body := [("message", Json.str message), ("stream", Json.bool streamFlag)]
  let body :=
    match capabilities with
    | some caps => body ++ [("capabilities", Json.arr (caps.map Json.str))]
    | none => body
  match files with
  | some fs => body ++ [("files", Json.arr (fs.map asdictFile))]
  | none => body

/-- The body sent by `run` (`stream=False`). -/
def run_body (message : String) (capabilities : Option (List String))
    (files : Option (List InputFile)) : List (String × Json) :=
  build_body message capabilities files false

/-- The body sent by `stream` (`stream=True`). -/
def stream_body (message : String) (capabilities : Option (List String))
    (files : Option (List InputFile)) : List (String × Json) :=
  build_body message capabilities files true

/-! ## Lemmas: the drain loop -/

theorem splitTwoNl_len : ∀ {s b rest : List Char},
    splitTwoNl s = some (b, rest) → s.length = b.length + rest.length + 2 := by
  intro s
  induction s with
  | nil => intro b rest h; simp [splitTwoNl] at h
  | cons c s ih =>
    intro b rest h
    cases s with
    | nil => simp [splitTwoNl] at h
    | cons d s2 =>
      simp only [splitTwoNl] at h
      split at h
      · injection h with h'
        injection h' with h1 h2
        subst h1; subst h2
        simp
      · split at h
        · next a' b' hsp =>
          injection h with h'
          injection h' with h1 h2
          subst h1; subst h2
          have := ih hsp
          simp at this ⊢
          omega
        · exact absurd h (by simp)

theorem splitTwoNl_append {s b rest : List Char} (ys : List Char)
    (h : splitTwoNl s = some (b, rest)) :
    splitTwoNl (s ++ ys) = some (b, rest ++ ys) := by
  induction s generalizing b rest with
  | nil => simp [splitTwoNl] at h
  | cons c s ih =>
    cases s with
    | nil => simp [splitTwoNl] at h
    | cons d s2 =>
      simp only [List.cons_append]
      simp only [splitTwoNl] at h ⊢
      split at h
      · next hc =>
        rw [if_pos hc]
        injection h with h'
        injection h' with h1 h2
        subst h1; subst h2
        rfl
      · next hc =>
        rw [if_neg hc]
        split at h
        · next a' b' hsp =>
          injection h with h'
          injection h' with h1 h2
          subst h1; subst h2
          have hih := ih hsp
          simp only [List.cons_append] at hih
          rw [hih]
        · exact absurd h (by simp)

theorem drainF_zero (s : List Char) : drainF 0 s = ([], s, false) := rfl

theorem drainF_succ (n : Nat) (s : List Char) :
    drainF (n + 1) s =
      match splitTwoNl s with
      | none => ([], s, false)
      | some (block, rest) =>
        match parse_sse_block block with
        | .error _ => ([], [], true)
        | .ok none => drainF n rest
        | .ok (some e) =>
          let p := drainF n rest
          (e :: p.1, p.2.1, p.2.2) := rfl

theorem drainF_congr : ∀ (n m : Nat) (s : List Char),
    s.length ≤ n → s.length ≤ m → drainF n s = drainF m s := by
  intro n
  induction n with
  | zero =>
    intro m s hs _
    have hnil : s = [] := List.length_eq_zero.mp (Nat.le_zero.mp hs)
    subst hnil
    cases m with
    | zero => rfl
    | succ m =>
      rw [drainF_zero, drainF_succ]
      rfl
  | succ n ih =>
    intro m s hsn hsm
    cases m with
    | zero =>
      have hnil : s = [] := List.length_eq_zero.mp (Nat.le_zero.mp hsm)
      subst hnil
      rw [drainF_succ, drainF_zero]
      rfl
    | succ m =>
      rw [drainF_succ, drainF_succ]
      cases hsp : splitTwoNl s with
      | none => rfl
      | some p =>
        obtain ⟨b, rest⟩ := p
        have hlen := splitTwoNl_len hsp
        have h1 : rest.length ≤ n := by omega
        have h2 : rest.length ≤ m := by omega
        simp only
        cases parse_sse_block b with
        | error e => rfl
        | ok o =>
          cases o with
          | none => exact ih m rest h1 h2
          | some e => simp only [ih m rest h1 h2]

/-- The recursion equation of the drain loop, fuel eliminated. -/
theorem drain_eq (s : List Char) : drain s =
    match splitTwoNl s with
    | none => ([], s, false)
    | some (block, rest) =>
      match parse_sse_block block with
      | .error _ => ([], [], true)
      | .ok none => drain rest
      | .ok (some e) =>
        let p := drain rest
        (e :: p.1, p.2.1, p.2.2) := by
  unfold drain
  cases hsp : splitTwoNl s with
  | none =>
    cases hl : s.length with
    | zero =>
      have hnil : s = [] := List.length_eq_zero.mp hl
      subst hnil
      rfl
    | succ n => rw [drainF_succ, hsp]
  | some p =>
    obtain ⟨b, rest⟩ := p
    have hlen := splitTwoNl_len hsp
    have hk : s.length = (b.length + rest.length + 1) + 1 := by omega
    rw [hk, drainF_succ, hsp]
    simp only
    cases parse_sse_block b with
    | error e => rfl
    | ok o =>
      cases o with
      | none =>
        exact drainF_congr (b.length + rest.length + 1) rest.length rest
          (by omega) (by omega)
      | some e =>
        simp only [drainF_congr (b.length + rest.length + 1) rest.length rest
          (by omega) (by omega)]

theorem drain_no_nn_aux : ∀ (n : Nat) (s : List Char), s.length ≤ n →
    (drain s).2.2 = false → splitTwoNl (drain s).2.1 = none := by
  intro n
  induction n with
  | zero =>
    intro s hs _
    have hnil : s = [] := List.length_eq_zero.mp (Nat.le_zero.mp hs)
    subst hnil
    rfl
  | succ n ih =>
    intro s hs hr
    rw [drain_eq] at hr ⊢
    cases hsp : splitTwoNl s with
    | none =>
      simp only [hsp] at hr ⊢
    | some p =>
      obtain ⟨b, rest⟩ := p
      have hlen := splitTwoNl_len hsp
      simp only [hsp] at hr ⊢
      cases hpb : parse_sse_block b with
      | error e =>
        simp only [hpb] at hr
        exact absurd hr (by decide)
      | ok o =>
        cases o with
        | none =>
          simp only [hpb] at hr ⊢
          exact ih rest (by omega) hr
        | some e =>
          simp only [hpb] at hr ⊢
          exact ih rest (by omega) hr

/-- A non-raised drain leaves a buffer with no block separator in it. -/
theorem drain_no_nn (s : List Char) (h : (drain s).2.2 = false) :
    splitTwoNl (drain s).2.1 = none :=
  drain_no_nn_aux s.length s Nat.le.refl h

theorem drain_append_aux : ∀ (n : Nat) (a : List Char), a.length ≤ n →
    ∀ (b : List Char),
    drain (a ++ b) =
      if (drain a).2.2 then ((drain a).1, [], true)
      else ((drain a).1 ++ (drain ((drain a).2.1 ++ b)).1,
            (drain ((drain a).2.1 ++ b)).2.1,
            (drain ((drain a).2.1 ++ b)).2.2) := by
  intro n
  induction n with
  | zero =>
    intro a ha b
    have hnil : a = [] := List.length_eq_zero.mp (Nat.le_zero.mp ha)
    subst hnil
    have hda : drain ([] : List Char) = ([], [], false) := rfl
    rw [hda]
    simp
  | succ n ih =>
    intro a ha b
    cases hsp : splitTwoNl a with
    | none =>
      have hda : drain a = ([], a, false) := by rw [drain_eq, hsp]
      rw [hda]
      simp
    | some p =>
      obtain ⟨blk, rest⟩ := p
      have hlen := splitTwoNl_len hsp
      have hab : splitTwoNl (a ++ b) = some (blk, rest ++ b) :=
        splitTwoNl_append b hsp
      cases hpb : parse_sse_block blk with
      | error e =>
        have hda : drain a = ([], [], true) := by
          rw [drain_eq, hsp]; simp only [hpb]
        have hdab : drain (a ++ b) = ([], [], true) := by
          rw [drain_eq, hab]; simp only [hpb]
        rw [hda, hdab]
        simp
      | ok o =>
        cases o with
        | none =>
          have hda : drain a = drain rest := by
            rw [drain_eq, hsp]; simp only [hpb]
          have hdab : drain (a ++ b) = drain (rest ++ b) := by
            rw [drain_eq, hab]; simp only [hpb]
          rw [hda, hdab]
          exact ih rest (by omega) b
        | some e =>
          have hda : drain a =
              (e :: (drain rest).1, (drain rest).2.1, (drain rest).2.2) := by
            rw [drain_eq, hsp]; simp only [hpb]
          have hdab : drain (a ++ b) =
              (e :: (drain (rest ++ b)).1, (drain (rest ++ b)).2.1,
               (drain (rest ++ b)).2.2) := by
            rw [drain_eq, hab]; simp only [hpb]
          rw [hda, hdab, ih rest (by omega) b]
          cases hx : (drain rest).2.2 with
          | true => simp [hx]
          | false => simp [hx]

/-- Draining a concatenation: drain the first part, then continue with its
leftover buffer prepended to the second part. -/
theorem drain_append (a b : List Char) :
    drain (a ++ b) =
      if (drain a).2.2 then ((drain a).1, [], true)
      else ((drain a).1 ++ (drain ((drain a).2.1 ++ b)).1,
            (drain ((drain a).2.1 ++ b)).2.1,
            (drain ((drain a).2.1 ++ b)).2.2) :=
  drain_append_aux a.length a Nat.le.refl b

theorem iterAux_eq_full : ∀ (cs : List (List Char)) (buffer : List Char),
    splitTwoNl buffer = none →
    iterEventsAux cs buffer = decodeFull (buffer ++ cs.flatten) := by
  intro cs
  induction cs with
  | nil =>
    intro buffer hb
    have hd : drain buffer = ([], buffer, false) := by rw [drain_eq, hb]
    simp [iterEventsAux, decodeFull, hd]
  | cons c cs ih =>
    intro buffer hb
    simp only [iterEventsAux, List.flatten_cons, ← List.append_assoc]
    rw [decodeFull, drain_append (buffer ++ c) cs.flatten]
    cases hx : (drain (buffer ++ c)).2.2 with
    | true => simp [hx]
    | false =>
      simp only [hx, if_false, Bool.false_eq_true]
      rw [ih (drain (buffer ++ c)).2.1 (drain_no_nn _ hx), decodeFull]
      cases hu : (drain ((drain (buffer ++ c)).2.1 ++ cs.flatten)).2.2 with
      | true => simp [hu]
      | false => simp [hu]

/-- `__iter__` over any chunking equals the one-shot decode of the full
concatenated text. -/
theorem iterEvents_eq_full (chunks : List (List Char)) :
    iterEvents chunks = decodeFull chunks.flatten := by
  have h := iterAux_eq_full chunks [] rfl
  simpa [iterEvents] using h

theorem blocksOfF_zero (s : List Char) :
    blocksOfF 0 s = if pyStrip s = [] then [] else [s] := rfl

theorem blocksOfF_succ (n : Nat) (s : List Char) :
    blocksOfF (n + 1) s =
      match splitTwoNl s with
      | none => if pyStrip s = [] then [] else [s]
      | some (block, rest) => block :: blocksOfF n rest := rfl

theorem blocksOfF_congr : ∀ (n m : Nat) (s : List Char),
    s.length ≤ n → s.length ≤ m → blocksOfF n s = blocksOfF m s := by
  intro n
  induction n with
  | zero =>
    intro m s hs _
    have hnil : s = [] := List.length_eq_zero.mp (Nat.le_zero.mp hs)
    subst hnil
    cases m with
    | zero => rfl
    | succ m => rw [blocksOfF_zero, blocksOfF_succ]; rfl
  | succ n ih =>
    intro m s hsn hsm
    cases m with
    | zero =>
      have hnil : s = [] := List.length_eq_zero.mp (Nat.le_zero.mp hsm)
      subst hnil
      rw [blocksOfF_succ, blocksOfF_zero]; rfl
    | succ m =>
      rw [blocksOfF_succ, blocksOfF_succ]
      cases hsp : splitTwoNl s with
      | none => rfl
      | some p =>
        obtain ⟨b, rest⟩ := p
        have hlen := splitTwoNl_len hsp
        simp only
        rw [ih m rest (by omega) (by omega)]

/-- The recursion equation of the block splitter, fuel eliminated. -/
theorem blocksOf_eq (s : List Char) : blocksOf s =
    match splitTwoNl s with
    | none => if pyStrip s = [] then [] else [s]
    | some (block, rest) => block :: blocksOf rest := by
  unfold blocksOf
  cases hsp : splitTwoNl s with
  | none =>
    cases hl : s.length with
    | zero => rw [blocksOfF_zero]
    | succ n => rw [blocksOfF_succ, hsp]
  | some p =>
    obtain ⟨b, rest⟩ := p
    have hlen := splitTwoNl_len hsp
    have hk : s.length = (b.length + rest.length + 1) + 1 := by omega
    rw [hk, blocksOfF_succ, hsp]
    simp only
    rw [blocksOfF_congr (b.length + rest.length + 1) rest.length rest
      (by omega) (by omega)]

theorem full_eq_blocks_aux : ∀ (n : Nat) (s : List Char), s.length ≤ n →
    decodeFull s = outcomeOfBlocks (blocksOf s) := by
  intro n
  induction n with
  | zero =>
    intro s hs
    have hnil : s = [] := List.length_eq_zero.mp (Nat.le_zero.mp hs)
    subst hnil
    rfl
  | succ n ih =>
    intro s hs
    rw [blocksOf_eq]
    cases hsp : splitTwoNl s with
    | none =>
      have hd : drain s = ([], s, false) := by rw [drain_eq, hsp]
      rw [decodeFull, hd]
      by_cases hst : pyStrip s = []
      · simp [flushBuf, hst, outcomeOfBlocks]
      · cases hps : parse_sse_block s with
        | error e => simp [flushBuf, hst, hps, outcomeOfBlocks]
        | ok o =>
          cases o with
          | none => simp [flushBuf, hst, hps, outcomeOfBlocks]
          | some e => simp [flushBuf, hst, hps, outcomeOfBlocks]
    | some p =>
      obtain ⟨b, rest⟩ := p
      have hlen := splitTwoNl_len hsp
      simp only
      cases hpb : parse_sse_block b with
      | error e =>
        have hd : drain s = ([], [], true) := by
          rw [drain_eq, hsp]; simp only [hpb]
        rw [decodeFull, hd]
        simp [outcomeOfBlocks, hpb]
      | ok o =>
        cases o with
        | none =>
          have hd : drain s = drain rest := by
            rw [drain_eq, hsp]; simp only [hpb]
          rw [decodeFull, hd, ← decodeFull]
          rw [ih rest (by omega)]
          simp [outcomeOfBlocks, hpb]
        | some e =>
          have hd : drain s =
              (e :: (drain rest).1, (drain rest).2.1, (drain rest).2.2) := by
            rw [drain_eq, hsp]; simp only [hpb]
          rw [decodeFull, hd]
          have hrest := ih rest (by omega)
          rw [decodeFull] at hrest
          simp only [outcomeOfBlocks, hpb, ← hrest]
          cases hx : (drain rest).2.2 with
          | true => simp [hx]
          | false => simp [hx]

/-- One-shot decoding is exactly: split into blocks, parse each in order. -/
theorem full_eq_blocks (s : List Char) :
    decodeFull s = outcomeOfBlocks (blocksOf s) :=
  full_eq_blocks_aux s.length s Nat.le.refl

/-- Is an event the `done` variant? -/
def isDoneEv : StreamEvent → Bool
  | .done _ _ => true
  | _ => false

theorem outcome_combine (bs1 bs2 : List (List Char)) :
    outcomeOfBlocks (bs1 ++ bs2) =
      combineOutcome (outcomeOfBlocks bs1) (outcomeOfBlocks bs2) := by
  induction bs1 with
  | nil => simp [outcomeOfBlocks, combineOutcome]
  | cons b bs ih =>
    simp only [List.cons_append, outcomeOfBlocks, List.append_eq]
    cases parse_sse_block b with
    | error e => simp [combineOutcome]
    | ok o =>
      cases o with
      | none => exact ih
      | some e =>
        simp only
        rw [ih]
        simp only [combineOutcome]
        cases hx : (outcomeOfBlocks bs).raised with
        | true => simp [hx]
        | false => simp [hx]

theorem foldl_updateRec : ∀ (evs : List StreamEvent)
    (init : Option AgentResponse),
    evs.foldl updateRec init =
      match lastDone evs with
      | some r => some r
      | none => init := by
  intro evs
  induction evs with
  | nil => intro init; rfl
  | cons e rest ih =>
    intro init
    rw [List.foldl_cons, ih]
    cases hl : lastDone rest with
    | some r => simp [lastDone, hl]
    | none =>
      cases e with
      | done r u => simp [lastDone, hl, updateRec]
      | token c => simp [lastDone, hl, updateRec]
      | tool_start t => simp [lastDone, hl, updateRec]
      | tool_end t => simp [lastDone, hl, updateRec]
      | error c m => simp [lastDone, hl, updateRec]

theorem firstDone_nodone : ∀ (l : List StreamEvent),
    (∀ e ∈ l, isDoneEv e = false) → firstDone l = none := by
  intro l
  induction l with
  | nil => intro _; rfl
  | cons e rest ih =>
    intro h
    have he := h e (List.mem_cons_self e rest)
    have hrest := ih fun x hx => h x (List.mem_cons_of_mem e hx)
    cases e with
    | done r u => simp [isDoneEv] at he
    | token c => simpa [firstDone] using hrest
    | tool_start t => simpa [firstDone] using hrest
    | tool_end t => simpa [firstDone] using hrest
    | error c m => simpa [firstDone] using hrest

theorem firstDone_split : ∀ (l1 : List StreamEvent)
    (r : AgentResponse) (u : Usage) (l2 : List StreamEvent),
    (∀ e ∈ l1, isDoneEv e = false) →
    firstDone (l1 ++ StreamEvent.done r u :: l2) = some r := by
  intro l1
  induction l1 with
  | nil => intro r u l2 _; rfl
  | cons e rest ih =>
    intro r u l2 h
    have he := h e (List.mem_cons_self e rest)
    have hrest := ih r u l2 fun x hx => h x (List.mem_cons_of_mem e hx)
    cases e with
    | done r' u' => simp [isDoneEv] at he
    | token c => simpa [firstDone] using hrest
    | tool_start t => simpa [firstDone] using hrest
    | tool_end t => simpa [firstDone] using hrest
    | error c m => simpa [firstDone] using hrest

/-! ## Claim theorems -/

/-- C1: For every fixed SSE text and every way of splitting it into chunks,
iterating the Stream Decoder (`AgentStream.__iter__`) over those chunks
yields exactly the same iteration outcome — in particular the same ordered
sequence of `StreamEvent` values.  Chunk fragmentation never changes the
output. -/
theorem C1_rechunking_invariance (chunks1 chunks2 : List (List Char))
    (h : chunks1.flatten = chunks2.flatten) :
    iterEvents chunks1 = iterEvents chunks2 := by
  rw [iterEvents_eq_full, iterEvents_eq_full, h]

/-- Sample SSE text for the rechunking witness. -/
def c1text : List Char :=
  str2l "event: token\ndata: \x7b\"content\":\"hi\"\x7d\n\nevent: done\ndata: \x7b\"response\":\x7b\"id\":\"r1\"\x7d\x7d\n\n"

theorem C1_rechunking_invariance_witness :
    iterEvents (c1text.map fun c => [c]) = iterEvents [c1text] :=
  C1_rechunking_invariance (c1text.map fun c => [c]) [c1text] (by rfl)

/-- C6: The Stream Decoder splits completed blocks at each first occurrence
of two consecutive newlines, in order, parsing each with the Block Parser,
and treats a non-whitespace final remainder as one last block (a
whitespace-only remainder emits nothing): iteration over any chunking
equals feeding `blocksOf` of the concatenated text to the block parser. -/
theorem C6_block_splitting (chunks : List (List Char)) :
    iterEvents chunks = outcomeOfBlocks (blocksOf chunks.flatten) := by
  rw [iterEvents_eq_full, full_eq_blocks]

/-- C10: Iteration does not stop at a `done` event: a block parsing to a
`DoneEvent` contributes its event and the blocks after it are still parsed,
their events emitted in order; and the recorded `_final_response` after a
full iteration is the response of the most recent `DoneEvent` seen (the
initial value if none). -/
theorem C10_continue_after_done (chunks : List (List Char))
    (init : Option AgentResponse) (bs1 bs2 : List (List Char))
    (b : List Char) (r : AgentResponse) (u : Usage)
    (hb : parse_sse_block b = Except.ok (some (StreamEvent.done r u))) :
    recordedAfter chunks init =
      (match lastDone (iterEvents chunks).events with
       | some r' => some r'
       | none => init)
    ∧ outcomeOfBlocks (bs1 ++ b :: bs2) =
        combineOutcome (outcomeOfBlocks bs1)
          ⟨StreamEvent.done r u :: (outcomeOfBlocks bs2).events,
           (outcomeOfBlocks bs2).raised⟩ := by
  constructor
  · exact foldl_updateRec (iterEvents chunks).events init
  · rw [outcome_combine]
    congr 1
    simp [outcomeOfBlocks, hb]

/-- Sample stream with two `done` blocks and a token block after the first
`done`, for the C10 witness. -/
def c10text : List Char :=
  str2l "event: done\ndata: \x7b\"response\":\x7b\"id\":\"d1\"\x7d\x7d\n\nevent: token\ndata: \x7b\"content\":\"after\"\x7d\n\nevent: done\ndata: \x7b\"response\":\x7b\"id\":\"d2\"\x7d\x7d\n\n"

/-- The `done` block used in the C10 witness. -/
def c10block : List Char :=
  str2l "event: done\ndata: \x7b\"response\":\x7b\"id\":\"d1\"\x7d\x7d"

/-- The response carried by `c10block`. -/
def c10resp : AgentResponse :=
  ⟨Json.str "d1", Json.str "agent.response", Json.str "", Json.arr [], [],
   ⟨Json.num 0, Json.num 0, Json.num 0⟩,
   ⟨Json.num 0, Json.str "", Json.str ""⟩⟩

/-- A token block placed after the `done` block in the C10 witness. -/
def c10after : List Char := str2l "event: token\ndata: \x7b\"content\":\"after\"\x7d"

theorem C10_continue_after_done_witness :
    recordedAfter [c10text] none =
      (match lastDone (iterEvents [c10text]).events with
       | some r' => some r'
       | none => none)
    ∧ outcomeOfBlocks ([] ++ c10block :: [c10after]) =
        combineOutcome (outcomeOfBlocks [])
          ⟨StreamEvent.done c10resp ⟨Json.num 0, Json.num 0, Json.num 0⟩ ::
             (outcomeOfBlocks [c10after]).events,
           (outcomeOfBlocks [c10after]).raised⟩ :=
  C10_continue_after_done [c10text] none [] [c10after] c10block c10resp
    ⟨Json.num 0, Json.num 0, Json.num 0⟩ (by rfl)

/-- C2: `final_response` drives the stream and returns the response of the
first `DoneEvent`; if the whole event sequence is exhausted (no uncaught
exception) without any `DoneEvent`, it raises the protocol error
(`RuntimeError`), modelled as `FinalResult.protocolError`. -/
theorem C2_final_response (chunks : List (List Char))
    (l1 l2 : List StreamEvent) (r : AgentResponse) (u : Usage) :
    ((iterEvents chunks).events = l1 ++ StreamEvent.done r u :: l2 →
      (∀ e ∈ l1, isDoneEv e = false) →
      final_response chunks none = FinalResult.ok r)
    ∧ ((∀ e ∈ (iterEvents chunks).events, isDoneEv e = false) →
      (iterEvents chunks).raised = false →
      final_response chunks none = FinalResult.protocolError) := by
  constructor
  · intro he hl
    simp only [final_response, he, firstDone_split l1 r u l2 hl]
  · intro hall hr
    simp only [final_response, firstDone_nodone _ hall, hr]
    simp

/-- Sample SSE text (the spec's §8 example) for the C2 witness. -/
def c2text : List Char :=
  str2l "event: token\ndata: \x7b\"content\":\"hi\"\x7d\n\nevent: done\ndata: \x7b\"response\":\x7b\"id\":\"r1\",\"message\":\"done\"\x7d,\"usage\":\x7b\"tokens_used\":5\x7d\x7d\n\n"

/-- The response carried by the `done` block of `c2text`. -/
def c2resp : AgentResponse :=
  ⟨Json.str "r1", Json.str "agent.response", Json.str "done", Json.arr [], [],
   ⟨Json.num 0, Json.num 0, Json.num 0⟩,
   ⟨Json.num 0, Json.str "", Json.str ""⟩⟩

theorem C2_final_response_witness :
    final_response [c2text] none = FinalResult.ok c2resp :=
  (C2_final_response [c2text] [StreamEvent.token (Json.str "hi")] [] c2resp
      ⟨Json.num 0, Json.num 0, Json.num 5⟩).1 (by rfl)
    (by intro e he
        simp only [List.mem_singleton] at he
        subst he
        rfl)

/-- C5: A block whose event tag is empty, or whose accumulated data buffer
is empty, or whose data is not valid JSON, or whose tag is unknown, yields
no event and does not raise; dropping such a block leaves the decoding of
all other blocks unchanged. -/
theorem C5_lenient_blocks (block : List Char)
    (h : (scanBlock block).1 = [] ∨ (scanBlock block).2 = [] ∨
         json_loads (scanBlock block).2 = none ∨
         (scanBlock block).1 ∉ knownTags) :
    parse_sse_block block = Except.ok none
    ∧ ∀ bs1 bs2, outcomeOfBlocks (bs1 ++ block :: bs2) =
        outcomeOfBlocks (bs1 ++ bs2) := by
  have hmain : parse_sse_block block = Except.ok none := by
    rcases h with h | h | h | h
    · simp [parse_sse_block, h]
    · simp [parse_sse_block, h]
    · by_cases he : (scanBlock block).1.isEmpty || (scanBlock block).2.isEmpty
      · simp [parse_sse_block, he]
      · simp [parse_sse_block, he, h]
    · simp only [knownTags, List.mem_cons, List.not_mem_nil, or_false,
        not_or] at h
      obtain ⟨h1, h2, h3, h4, h5⟩ := h
      by_cases he : (scanBlock block).1.isEmpty || (scanBlock block).2.isEmpty
      · simp [parse_sse_block, he]
      · cases hj : json_loads (scanBlock block).2 with
        | none => simp [parse_sse_block, he, hj]
        | some parsed => simp [parse_sse_block, he, hj, h1, h2, h3, h4, h5]
  refine ⟨hmain, fun bs1 bs2 => ?_⟩
  rw [outcome_combine, outcome_combine]
  congr 1
  simp [outcomeOfBlocks, hmain]

/-- An unknown-tag block for the C5 witness. -/
def c5block : List Char := str2l "event: ping\ndata: \x7b\x7d"

/-- A well-formed token block kept around the dropped block in the C5
witness. -/
def c5keep : List Char := str2l "event: token\ndata: \x7b\"content\":\"k\"\x7d"

theorem C5_lenient_blocks_witness :
    parse_sse_block c5block = Except.ok none
    ∧ outcomeOfBlocks ([c5keep] ++ c5block :: [c5keep]) =
        outcomeOfBlocks ([c5keep] ++ [c5keep]) := by
  have h := C5_lenient_blocks c5block
    (Or.inr (Or.inr (Or.inr (by decide))))
  exact ⟨h.1, h.2 [c5keep] [c5keep]⟩

/-- C9: The Block Parser is not total on known-tag blocks whose data is
valid JSON but not a JSON object: `event: token` with `data: 5` raises
(only `json.JSONDecodeError` is caught; `parsed.get` on an `int` fails). -/
theorem C9_nonobject_raises :
    json_loads (str2l "5") = some (Json.num 5)
    ∧ str2l "token" ∈ knownTags
    ∧ parse_sse_block (str2l "event: token\ndata: 5") = Except.error () :=
  ⟨rfl, by decide, rfl⟩

/-- The members of the parsed `data` JSON in the C3 counterexample:
a present-but-empty top-level `usage`, and a nested `response.usage`. -/
def c3members : List (String × Json) :=
  [("usage", Json.obj []),
   ("response", Json.obj [("usage", Json.obj [("tokens_used", Json.num 5)])])]

/-- The C3 counterexample block: `event: done` whose data carries a falsy
(empty) top-level `usage` object and a nested `response.usage`. -/
def c3block : List Char :=
  str2l "event: done\ndata: \x7b\"usage\": \x7b\x7d, \"response\": \x7b\"usage\": \x7b\"tokens_used\": 5\x7d\x7d\x7d"

/-- The response decoded from the C3 counterexample's `response` object. -/
def c3resp : AgentResponse :=
  ⟨Json.str "", Json.str "agent.response", Json.str "", Json.arr [], [],
   ⟨Json.num 0, Json.num 0, Json.num 5⟩,
   ⟨Json.num 0, Json.str "", Json.str ""⟩⟩

/-- C3 counterexample: the claim "DoneEvent.usage is decoded from the
top-level `usage` field if present" fails.  Here the top-level `usage` field
is present (the empty object, which decodes to all-zero `Usage`), yet the
produced `DoneEvent.usage` is `tokens_used = 5`, taken from
`response.usage`: Python `or` falls back on falsiness, not absence. -/
theorem C3_counterexample :
    json_loads (scanBlock c3block).2 = some (Json.obj c3members)
    ∧ lookupKey c3members "usage" = some (Json.obj [])
    ∧ Usage.from_dict (Json.obj []) =
        Except.ok ⟨Json.num 0, Json.num 0, Json.num 0⟩
    ∧ parse_sse_block c3block =
        Except.ok (some (StreamEvent.done c3resp
          ⟨Json.num 0, Json.num 0, Json.num 5⟩))
    ∧ (⟨Json.num 0, Json.num 0, Json.num 5⟩ : Usage) ≠
        ⟨Json.num 0, Json.num 0, Json.num 0⟩ :=
  ⟨rfl, rfl, rfl, rfl, by simp⟩

/-- C3 amended: for a `done` block whose data parses to a JSON object, the
response is decoded from the `response` sub-object (empty object when
absent); the usage is decoded from the top-level `usage` field when that
field is present AND truthy, and otherwise from the `usage` sub-object
nested inside `response` (in particular a `response.usage` sub-object with
no top-level `usage` is used). -/
theorem C3_done_usage_fallback (m : List (String × Json)) (r : AgentResponse)
    (u : Usage)
    (hr : AgentResponse.from_dict (getD m "response" (Json.obj [])) =
      Except.ok r) :
    (truthy (getJ m "usage") = true →
      Usage.from_dict (getJ m "usage") = Except.ok u →
      doneOfObj m = Except.ok (StreamEvent.done r u))
    ∧ (truthy (getJ m "usage") = false →
      ∀ rm : List (String × Json),
        pyOr (getJ m "response") (Json.obj []) = Json.obj rm →
        Usage.from_dict (getD rm "usage" (Json.obj [])) = Except.ok u →
        doneOfObj m = Except.ok (StreamEvent.done r u)) := by
  constructor
  · intro ht hu
    simp [doneOfObj, hr, ht, hu]
  · intro ht rm hrm hu
    simp [doneOfObj, hr, ht, hrm, hu]

/-- The `response` members of the C3 witness. -/
def c3rm : List (String × Json) :=
  [("usage", Json.obj [("tokens_used", Json.num 5)])]

theorem C3_done_usage_fallback_witness :
    doneOfObj c3members =
      Except.ok (StreamEvent.done c3resp
        ⟨Json.num 0, Json.num 0, Json.num 5⟩) :=
  (C3_done_usage_fallback c3members c3resp
      ⟨Json.num 0, Json.num 0, Json.num 5⟩ (by rfl)).2 (by rfl) c3rm
    (by rfl) (by rfl)

/-- C4 counterexample: the claim "`from_dict` returns an `AgentResponse`
whose id equals the input's `id` field" fails for a map whose `id` is
present but empty: `data.get("id") or data.get("request_id", "")` falls
back on falsiness, so the result's id is `"abc"`, not `""`. -/
theorem C4_counterexample :
    lookupKey [("id", Json.str ""), ("request_id", Json.str "abc")] "id" =
      some (Json.str "")
    ∧ AgentResponse.from_dict
        (Json.obj [("id", Json.str ""), ("request_id", Json.str "abc")]) =
        Except.ok ⟨Json.str "abc", Json.str "agent.response", Json.str "",
          Json.arr [], [], ⟨Json.num 0, Json.num 0, Json.num 0⟩,
          ⟨Json.num 0, Json.str "", Json.str ""⟩⟩
    ∧ Json.str "abc" ≠ Json.str "" :=
  ⟨rfl, rfl, by simp⟩

/-- C4 amended: whenever `AgentResponse.from_dict` returns a response for a
map-shaped input, its id is the input's `id` field when that field is
present AND truthy (e.g. non-empty); otherwise the `request_id` field (with
default `""`); in particular the empty string when both are absent. -/
theorem C4_id_fallback (m : List (String × Json)) (r : AgentResponse)
    (h : AgentResponse.from_dict (Json.obj m) = Except.ok r) :
    (truthy (getJ m "id") = true → r.id = getJ m "id")
    ∧ (truthy (getJ m "id") = false →
        r.id = getD m "request_id" (Json.str ""))
    ∧ (lookupKey m "id" = none → lookupKey m "request_id" = none →
        r.id = Json.str "") := by
  simp only [AgentResponse.from_dict] at h
  split at h
  · exact absurd h (by simp)
  · split at h
    · exact absurd h (by simp)
    · split at h
      · exact absurd h (by simp)
      · split at h
        · exact absurd h (by simp)
        · injection h with h'
          subst h'
          refine ⟨?_, ?_, ?_⟩
          · intro ht; simp [pyOr, ht]
          · intro ht; simp [pyOr, ht]
          · intro h1 h2; simp [pyOr, getJ, getD, h1, h2, truthy]

theorem C4_id_fallback_witness :
    (⟨Json.str "abc", Json.str "agent.response", Json.str "", Json.arr [],
      [], ⟨Json.num 0, Json.num 0, Json.num 0⟩,
      ⟨Json.num 0, Json.str "", Json.str ""⟩⟩ : AgentResponse).id =
      getD [("id", Json.str ""), ("request_id", Json.str "abc")]
        "request_id" (Json.str "") :=
  (C4_id_fallback [("id", Json.str ""), ("request_id", Json.str "abc")] _
      (by rfl)).2.1 (by rfl)

/-- C7: For a non-2xx response, the raised `StewrdError` carries the
original HTTP status; when the body is not valid JSON, or is valid JSON but
not an object, or is an object whose error value (top-level or under an
`error` key) is not a dict, all fields fall back to the defaults
(`code="unknown_error"`, message = the HTTP reason phrase, no docs); when
the error object is a dict, the code, message and docs are read from it
with those same per-field defaults.  The error-construction path is a total
function: it never fails. -/
theorem C7_error_mapping (status : Nat) (reason : String) (body : List Char) :
    (handle_error status reason body).status = status
    ∧ (json_loads body = none →
        handle_error status reason body = dfltErr status reason)
    ∧ (∀ j : Json, json_loads body = some j → j.isObj = false →
        handle_error status reason body = dfltErr status reason)
    ∧ (∀ m : List (String × Json), json_loads body = some (Json.obj m) →
        (getD m "error" (Json.obj m)).isObj = false →
        handle_error status reason body = dfltErr status reason)
    ∧ (∀ em m : List (String × Json), json_loads body = some (Json.obj m) →
        getD m "error" (Json.obj m) = Json.obj em →
        handle_error status reason body =
          ⟨status, getD em "code" (Json.str "unknown_error"),
           getD em "message"
             (Json.str (if reason = "" then "Unknown error" else reason)),
           getJ em "docs"⟩) := by
  refine ⟨?_, ?_, ?_, ?_, ?_⟩
  · unfold handle_error
    split
    · rfl
    · split
      · split
        · rfl
        · rfl
      · rfl
  · intro hj
    simp [handle_error, hj]
  · intro j hj hio
    cases j with
    | obj m => simp [Json.isObj] at hio
    | null => simp [handle_error, hj]
    | bool b => simp [handle_error, hj]
    | num n => simp [handle_error, hj]
    | fnum a b => simp [handle_error, hj]
    | nan => simp [handle_error, hj]
    | inf n => simp [handle_error, hj]
    | str s => simp [handle_error, hj]
    | arr l => simp [handle_error, hj]
  · intro m hj hio
    cases hge : getD m "error" (Json.obj m) with
    | obj em =>
      rw [hge] at hio
      simp [Json.isObj] at hio
    | null => simp [handle_error, hj, hge]
    | bool b => simp [handle_error, hj, hge]
    | num n => simp [handle_error, hj, hge]
    | fnum a b => simp [handle_error, hj, hge]
    | nan => simp [handle_error, hj, hge]
    | inf n => simp [handle_error, hj, hge]
    | str s => simp [handle_error, hj, hge]
    | arr l => simp [handle_error, hj, hge]
  · intro em m hj he
    simp [handle_error, hj, he]

/-- The error body of the spec's §8 example, for the C7 witness. -/
def c7body : List Char :=
  str2l "\x7b\"error\":\x7b\"code\":\"invalid_api_key\",\"message\":\"bad key\"\x7d\x7d"

/-- The nested error object of `c7body`. -/
def c7em : List (String × Json) :=
  [("code", Json.str "invalid_api_key"), ("message", Json.str "bad key")]

/-- A valid-JSON body whose `error` value is not a dict (unexpected
shape), for the C7 witness. -/
def c7badShape : List Char := str2l "\x7b\"error\":\"boom\"\x7d"

/-- A valid-JSON body that is not an object, for the C7 witness. -/
def c7nonObj : List Char := str2l "[1,2]"

theorem C7_error_mapping_witness :
    handle_error 401 "Unauthorized" c7body =
      ⟨401, Json.str "invalid_api_key", Json.str "bad key", Json.null⟩
    ∧ handle_error 400 "Bad Request" c7badShape = dfltErr 400 "Bad Request"
    ∧ handle_error 400 "Bad Request" c7nonObj = dfltErr 400 "Bad Request" := by
  refine ⟨?_, ?_, ?_⟩
  · rw [(C7_error_mapping 401 "Unauthorized" c7body).2.2.2.2 c7em
      [("error", Json.obj c7em)] (by rfl) (by rfl)]
    rfl
  · exact (C7_error_mapping 400 "Bad Request" c7badShape).2.2.2.1
      [("error", Json.str "boom")] (by rfl) (by rfl)
  · exact (C7_error_mapping 400 "Bad Request" c7nonObj).2.2.1
      (Json.arr [Json.num 1, Json.num 2]) (by rfl) (by rfl)

/-- C8: The request body always contains `message` and the boolean `stream`
flag (`false` for `run`, `true` for `stream`); `capabilities` and `files`
are omitted entirely when the caller passes nothing, and included verbatim
(files serialized field-by-field) when passed — so an explicitly passed
empty sequence is sent as an empty list, distinct from omission. -/
theorem C8_body_construction (message : String) (streamFlag : Bool)
    (caps : List String) (files : List InputFile)
    (caps2 : Option (List String)) (files2 : Option (List InputFile)) :
    lookupKey (build_body message caps2 files2 streamFlag) "message" =
      some (Json.str message)
    ∧ lookupKey (build_body message caps2 files2 streamFlag) "stream" =
        some (Json.bool streamFlag)
    ∧ run_body message caps2 files2 = build_body message caps2 files2 false
    ∧ stream_body message caps2 files2 = build_body message caps2 files2 true
    ∧ lookupKey (build_body message none files2 streamFlag) "capabilities" =
        none
    ∧ lookupKey (build_body message (some caps) files2 streamFlag)
        "capabilities" = some (Json.arr (caps.map Json.str))
    ∧ lookupKey (build_body message caps2 none streamFlag) "files" = none
    ∧ lookupKey (build_body message caps2 (some files) streamFlag) "files" =
        some (Json.arr (files.map asdictFile)) := by
  refine ⟨?_, ?_, rfl, rfl, ?_, ?_, ?_, ?_⟩
  · cases caps2 <;> cases files2 <;> simp [build_body, lookupKey]
  · cases caps2 <;> cases files2 <;> simp [build_body, lookupKey]
  · cases files2 <;> simp [build_body, lookupKey]
  · cases files2 <;> simp [build_body, lookupKey]
  · cases caps2 <;> simp [build_body, lookupKey]
  · cases caps2 <;> simp [build_body, lookupKey]
